import Mathlib

/-!
Shallow embedding of the content-collection and token-budgeting pipeline of the
daily-briefing repository (src/content/*.py, src/utils/api_utils.py, src/main.py),
together with theorems settling the frozen claims about it.

Conventions used throughout the embedding:
* Python dicts are modelled as insertion-ordered association lists
  (`Item := List (String × JVal)`); the pipeline's dict values are either
  strings or `datetime` objects, captured by `JVal`.
* Timestamps are integers (seconds); `datetime` objects carry such an integer.
  `isoformat` below is an injective stand-in for `datetime.isoformat()`.
* Network effects are passed in explicitly: each adapter takes the outcome of
  its network calls as an argument (`Except Unit _` models raise-vs-return).
-/

namespace DailyBriefing

/-- Stand-in for `datetime.isoformat()` applied to the datetime object for time
`t`. The development only relies on this being a computable injective function
into strings, never on its lexicographic ordering. -/
def isoformat (t : Int) : String := "dt:" ++ toString t

/-- A Python value appearing in a content item dict: either a string or a
`datetime` object (identified by its time in seconds). -/
inductive JVal where
  | jstr (s : String)
  | jdt (t : Int)
deriving DecidableEq

/-- A content item: a Python dict with string keys in insertion order
(e.g. `\x7b"url": ..., "title": ..., "article": ...\x7d`). -/
abbrev Item : Type := List (String × JVal)

/-- Lookup `item.get(k)` / `k in item`: first binding of key `k`. -/
def getField : Item → String → Option JVal
  | [], _ => none
  | (k, v) :: rest, key => if k = key then some v else getField rest key

/-- Whether `"k" in item` holds for a Python dict. -/
def hasKey (it : Item) (k : String) : Bool :=
  (getField it k).isSome

/-! ### json.dumps (default settings: separators ", " / ": ", ensure_ascii) -/

def hexDigitChar (n : Nat) : Char :=
  if n < 10 then Char.ofNat (48 + n) else Char.ofNat (87 + n)

def hex4 (n : Nat) : String :=
  String.mk [hexDigitChar (n / 4096 % 16), hexDigitChar (n / 256 % 16),
             hexDigitChar (n / 16 % 16), hexDigitChar (n % 16)]

/-- Escaping of one character as in CPython's `json.dumps` with
`ensure_ascii=True`: printable ASCII except `"` and `\` passes through,
everything else is escaped (`\uXXXX`, surrogate pairs beyond the BMP). -/
def jsonEscapeChar (c : Char) : String :=
  if c = '"' then "\\\""
  else if c = '\\' then "\\\\"
  else if c = '\n' then "\\n"
  else if c = '\r' then "\\r"
  else if c = '\t' then "\\t"
  else if c.toNat = 8 then "\\b"
  else if c.toNat = 12 then "\\f"
  else if c.toNat < 32 ∨ c.toNat > 126 then
    if c.toNat ≤ 65535 then "\\u" ++ hex4 c.toNat
    else
      let n := c.toNat - 65536
      "\\u" ++ hex4 (55296 + n / 1024) ++ "\\u" ++ hex4 (56320 + n % 1024)
  else String.mk [c]

def jsonQuote (s : String) : String :=
  "\"" ++ String.join (s.data.map jsonEscapeChar) ++ "\""

/-- Encoding of a single dict value by `json.dumps`. A raw `datetime` object would make
Python's `json.dumps` raise `TypeError`; the pipeline only ever dumps values
whose datetimes were converted to isoformat strings first, so the `jdt`
branch here is never reached on the inputs the code actually serializes. -/
def jsonVal : JVal → String
  | .jstr s => jsonQuote s
  | .jdt t => jsonQuote (isoformat t)

/-- Encoding `json.dumps(item)` for a dict of strings, key insertion order preserved. -/
def jsonDumpsObj (it : Item) : String :=
  "\x7b" ++ String.intercalate ", " (it.map (fun p => jsonQuote p.1 ++ ": " ++ jsonVal p.2)) ++ "\x7d"

/-- Encoding `json.dumps(items)` for a list of dicts — the whole-collection encoding. -/
def jsonDumpsList (l : List Item) : String :=
  "[" ++ String.intercalate ", " (l.map jsonDumpsObj) ++ "]"

/-! ### src/utils/api_utils.py: num_tokens_from_string -/

/-- Estimate `len(string) // 4` (Claude-style character-count approximation). -/
def num_tokens_from_string (s : String) : Nat := s.length / 4

/-! ### src/content/content_manager.py: limit_content_by_tokens -/

/-- Python's `<` on strings: lexicographic comparison of code-point
sequences. -/
def strLT : List Char → List Char → Bool
  | [], [] => false
  | [], _ :: _ => true
  | _ :: _, [] => false
  | a :: as, b :: bs =>
    if a = b then strLT as bs
    else decide (a < b)

def pyStrLT (s t : String) : Bool := strLT s.data t.data

/-- Python's `<=` on strings (total: `s <= t` iff not `t < s`). -/
def pyStrLE (s t : String) : Bool := !(pyStrLT t s)

/-- The sort key `lambda x: x.get("datetime", "")`: a missing field yields the
empty string; a present field is either an isoformat string or a datetime
object. (Python compares strings with strings lexicographically and datetime
objects with datetime objects chronologically; comparing the two kinds raises
`TypeError`. The adapters only produce string-or-absent datetime fields.) -/
inductive PyKey where
  | pstr (s : String)
  | pdt (t : Int)
deriving DecidableEq

def keyOf (it : Item) : PyKey :=
  match getField it "datetime" with
  | none => .pstr ""
  | some (.jstr s) => .pstr s
  | some (.jdt t) => .pdt t

/-- Boolean "≤" on sort keys. The mixed cases are unreachable in Python
(they raise `TypeError`); the model totalizes them arbitrarily so that a sort
function can be stated. All theorems stay in the homogeneous fragment. -/
def keyLE : PyKey → PyKey → Bool
  | .pstr a, .pstr b => pyStrLE a b
  | .pdt a, .pdt b => decide (a ≤ b)
  | .pstr _, .pdt _ => true
  | .pdt _, .pstr _ => false

def itemLE (a b : Item) : Bool := keyLE (keyOf a) (keyOf b)

/-- The in-place datetime conversion applied both inside
`serialize_for_token_count` (on a copy) and at the end of
`limit_content_by_tokens` (on the items themselves): if the `datetime` field
holds a datetime object, replace it by its isoformat string. -/
def convertDatetimeVal : JVal → JVal
  | .jdt t => .jstr (isoformat t)
  | v => v

def convertDatetime (it : Item) : Item :=
  it.map (fun p => if p.1 = "datetime" then (p.1, convertDatetimeVal p.2) else p)

/-- Helper `serialize_for_token_count(item)`: copy, convert a datetime object to its
isoformat string, `json.dumps` the copy. -/
def serialize_for_token_count (it : Item) : String :=
  jsonDumpsObj (convertDatetime it)

def tokensOfItem (it : Item) : Nat :=
  num_tokens_from_string (serialize_for_token_count it)

/-- Total `total_tokens = sum(num_tokens_from_string(serialize_for_token_count(item)) for item in content)` —
the per-item sum the limiter compares against the budget. -/
def totalTokens (l : List Item) : Nat :=
  (l.map tokensOfItem).sum

/-- The `while total_tokens > max_tokens and len(content) > 1: content.pop(0)`
loop, recomputing the total after each removal. -/
def evictLoop (max_tokens : Int) : List Item → List Item
  | [] => []
  | [x] => [x]
  | x :: y :: rest =>
    if (totalTokens (x :: y :: rest) : Int) > max_tokens then
      evictLoop max_tokens (y :: rest)
    else
      x :: y :: rest

/-- Limiter `limit_content_by_tokens(content_list, max_tokens, section_title)`:
empty input returned unchanged; otherwise sort a copy by the datetime key
(Python's stable sort), evict oldest-first while over budget and more than one
item remains, then convert surviving items' datetime objects to strings in
place. The `section_title` argument only feeds logging and is omitted. -/
def limit_content_by_tokens (content_list : List Item) (max_tokens : Int) : List Item :=
  if content_list.isEmpty then
    content_list
  else
    let content := content_list.mergeSort itemLE
    let content := evictLoop max_tokens content
    content.map convertDatetime

/-! ### src/utils/api_utils.py: get_content_collection_timeframe

Wall-clock datetimes in the configured timezone are modelled as a calendar day
index plus seconds within the day. Day 0 is a Monday, matching Python's
`weekday()` (0=Monday .. 6=Sunday) via `day % 7`. Python's aware-datetime
arithmetic with `timedelta` is wall-clock arithmetic, which day-index
subtraction models exactly. -/

structure LocalDT where
  day : Int
  sec : Int
deriving DecidableEq

/-- Absolute seconds of a wall-clock point (fixed-offset view; used to compare
window bounds with adapter timestamps, which live on the same second scale). -/
def LocalDT.toSec (d : LocalDT) : Int := d.day * 86400 + d.sec

/-- Chronological order on wall-clock datetimes of one timezone. -/
def dtLT (x y : LocalDT) : Prop := x.day < y.day ∨ (x.day = y.day ∧ x.sec < y.sec)

/-- Resolver `get_content_collection_timeframe()`: end = today 06:00; start = end minus
3/1/2 days when today is Monday/Saturday/Sunday, else end minus 1 day. -/
def get_content_collection_timeframe (now : LocalDT) : LocalDT × LocalDT :=
  let end_datetime : LocalDT := ⟨now.day, 6 * 3600⟩
  let weekday := now.day % 7
  let days_back : Int :=
    if weekday = 0 then 3
    else if weekday = 5 then 1
    else if weekday = 6 then 2
    else 1
  (⟨end_datetime.day - days_back, end_datetime.sec⟩, end_datetime)

/-! ### src/content/sitemap_content.py -/

/-- State of one `<lastmod>` element: missing, parsed to a timestamp, or
present but with a date `datetime.fromisoformat` cannot parse. -/
inductive Lastmod where
  | absent
  | parsed (t : Int)
  | malformed
deriving DecidableEq

/-- One `<url>` element of a sub-sitemap: its `<loc>` text (if the element is
present) and the state of its `<lastmod>` element. -/
structure SitemapEntry where
  loc : Option String
  lastmod : Lastmod
deriving DecidableEq

/-- Update step `if latest_datetime is None or t > latest_datetime: latest_datetime = t`. -/
def updateLatest (latest : Option Int) (t : Int) : Option Int :=
  match latest with
  | none => some t
  | some l => if t > l then some t else some l

/-- First pass of `get_latest_24h_articles`: the most recent `lastmod` across
all sitemaps that fetched successfully (failed sitemaps are logged and
skipped). This pass has a per-entry `try`, so an unparseable date is logged
and skipped without affecting the rest of its sitemap. -/
def latestLastmod (smaps : List (Except Unit (List SitemapEntry))) : Option Int :=
  smaps.foldl (fun acc sm =>
    match sm with
    | .error _ => acc
    | .ok entries => entries.foldl (fun a e =>
        match e.lastmod with
        | .parsed t => updateLatest a t
        | _ => a) acc) none

/-- Second pass over one sub-sitemap. Unlike the first pass there is NO
per-entry `try` here (sitemap_content.py lines 96-105): when an entry has both
elements but its date fails to parse, `datetime.fromisoformat` raises and the
per-sitemap handler catches it, so the REMAINDER of that sub-sitemap is
dropped and the URLs collected so far survive. Entries missing either element
are skipped by the `if` guard without any parse attempt. -/
def keptUrlsPass (cutoff latest : Int) : List SitemapEntry → List String
  | [] => []
  | e :: rest =>
    match e.loc, e.lastmod with
    | some loc, .parsed t =>
      if cutoff ≤ t ∧ t ≤ latest then loc :: keptUrlsPass cutoff latest rest
      else keptUrlsPass cutoff latest rest
    | some _, .malformed => []
    | _, _ => keptUrlsPass cutoff latest rest

/-- Windowing `get_latest_24h_articles(sitemap_urls, source_name)`: cutoff is 24 hours
before the feed's own most recent `lastmod`; no valid timestamp at all yields
`[]`. The resolver window plays no part. (Both passes consume the same fetched
responses: the model takes the refetch in the second pass to return the same
data.) -/
def get_latest_24h_articles (smaps : List (Except Unit (List SitemapEntry))) : List String :=
  match latestLastmod smaps with
  | none => []
  | some latest =>
    smaps.foldl (fun acc sm =>
      match sm with
      | .error _ => acc
      | .ok entries => acc ++ keptUrlsPass (latest - 86400) latest entries) []

/-- Specification-side filter: `loc` of the entries with both elements present
and `cutoff <= lastmod <= latest` (inclusive on both ends). -/
def keptUrls (cutoff latest : Int) (entries : List SitemapEntry) : List String :=
  entries.filterMap (fun e =>
    match e.loc, e.lastmod with
    | some loc, .parsed t => if cutoff ≤ t ∧ t ≤ latest then some loc else none
    | _, _ => none)

/-- Specification-side truncation: the prefix of a sub-sitemap the second pass
actually processes — everything before the first entry whose present-but-
unparseable `lastmod` makes the pass raise. -/
def untilParseError : List SitemapEntry → List SitemapEntry
  | [] => []
  | e :: rest =>
    match e.loc, e.lastmod with
    | some _, .malformed => []
    | _, _ => e :: untilParseError rest

/-- Adapter step `get_gq_sitemap_urls`: on any exception return `[]`; otherwise keep the
`<loc>` texts starting with the post-sitemap prefix. -/
def get_gq_sitemap_urls (env : Except Unit (List (Option String))) : List String :=
  match env with
  | .error _ => []
  | .ok locs => locs.filterMap (fun loc =>
      match loc with
      | some url =>
        if url.startsWith "https://www.greenqueen.com.hk/post-sitemap" then some url else none
      | none => none)

/-- Outcome of fetching one article page: HTTP 200 flag plus the text of the
title and content containers (when those tags are found). -/
structure GQPage where
  ok : Bool
  title : Option String
  article : Option String

/-- Adapter step `get_gq_article_content(urls)`: per-URL failures (exception or non-200)
are logged and skipped; missing containers default to empty strings. -/
def get_gq_article_content (urls : List String) (page : String → Except Unit GQPage) :
    List Item :=
  urls.filterMap (fun url =>
    match page url with
    | .error _ => none
    | .ok pg =>
      if pg.ok then
        some [("url", JVal.jstr url), ("title", JVal.jstr (pg.title.getD "")),
              ("article", JVal.jstr (pg.article.getD ""))]
      else none)

/-- Adapter `get_gq_content()`: sitemap index -> filtered sub-sitemaps -> last-24h
article URLs -> article contents. -/
def get_gq_content (indexEnv : Except Unit (List (Option String)))
    (siteEnv : String → Except Unit (List SitemapEntry))
    (pageEnv : String → Except Unit GQPage) : List Item :=
  let post_sitemap_urls := get_gq_sitemap_urls indexEnv
  let article_urls := get_latest_24h_articles (post_sitemap_urls.map siteEnv)
  get_gq_article_content article_urls pageEnv

/-! ### src/content/rss_content.py -/

/-- Link of the most recent feed entry: `sorted(entries, key=published,
reverse=True)[0].link`. Python's stable descending sort keeps the first of
several maximal entries first, which the fold with a strict comparison
reproduces. Each pair is (published_parsed, link). -/
def mostRecentLink : List (Int × String) → Option String
  | [] => none
  | e :: es => some ((es.foldl (fun best x => if x.1 > best.1 then x else best) e).2)

/-- The Rundown article page: text of the `div#content-blocks` container when
present. -/
structure RundownPage where
  contentBlocks : Option String

/-- Adapter `get_rundown_content()`: returns `None` (not a sequence) when the feed has
no entries, when fetching the page raises, or when the content container is
missing; otherwise a single dict. -/
def get_rundown_content (entries : List (Int × String))
    (page : String → Except Unit RundownPage) : Option Item :=
  match mostRecentLink entries with
  | none => none
  | some link =>
    match page link with
    | .error _ => none
    | .ok pg =>
      match pg.contentBlocks with
      | some text => some [("url", JVal.jstr link), ("article", JVal.jstr text)]
      | none => none

/-- Adapter `get_ts_content()`: the page fetch outcome is the list of texts of the
`td.bodyContent` cells. Any exception — including the `ValueError` the
function itself raises when no such cell exists — is logged and RE-RAISED
(`Except.error`), not converted to an empty result. -/
def get_ts_content (page : Except Unit (List String)) : Except Unit Item :=
  match page with
  | .error e => .error e
  | .ok body_contents =>
    if body_contents.isEmpty then .error ()
    else .ok [("url", JVal.jstr "https://content.fortune.com/newsletter/termsheet/"),
              ("article", JVal.jstr (String.intercalate "\n\n" body_contents))]

/-- One Vegconomist feed entry: parsed `published_parsed` (UTC seconds, `none`
when absent), link, title, and the extracted article text (the model takes the
BeautifulSoup extraction as given). -/
structure VegEntry where
  published : Option Int
  link : String
  title : String
  text : String
deriving DecidableEq

def latestVegPublished (entries : List VegEntry) : Option Int :=
  entries.foldl (fun acc e =>
    match e.published with
    | some t => updateLatest acc t
    | none => acc) none

/-- Adapter `get_vegconomist_content()`: whole-feed failure returns `[]`; otherwise
keep entries within 24 hours (inclusive) of the feed's own most recent
publication time. The resolver window plays no part. -/
def get_vegconomist_content (env : Except Unit (List VegEntry)) : List Item :=
  match env with
  | .error _ => []
  | .ok entries =>
    match latestVegPublished entries with
    | none => []
    | some latest =>
      entries.filterMap (fun e =>
        match e.published with
        | some t =>
          if latest - 86400 ≤ t ∧ t ≤ latest then
            some [("url", JVal.jstr e.link), ("title", JVal.jstr e.title),
                  ("article", JVal.jstr e.text)]
          else none
        | none => none)

/-- One EA Forum feed item: element texts (`none` = element missing) and the
parsed `pubDate` (EST seconds; `none` = absent or unparseable). The
`description` carries the already-cleaned text (`clean_html_content` output). -/
structure EAEntry where
  title : Option String
  link : Option String
  description : Option String
  pubDate : Option Int
deriving DecidableEq

def latestEAPub (entries : List EAEntry) : Option Int :=
  entries.foldl (fun acc e =>
    match e.pubDate with
    | some t => updateLatest acc t
    | none => acc) none

/-- Adapter `get_ea_forum_content()`: whole-feed failure returns `[]`; otherwise keep
items with title, link and parseable pubDate within 48 hours (inclusive) of
the feed's own most recent post, sort them oldest-first by their datetime,
drop the datetime field, and apply the same oldest-first per-item-sum token
eviction loop with a hardcoded 20000 ceiling. (`evictLoop` is reusable here:
these items carry no datetime field, so `serialize_for_token_count` coincides
with `json.dumps`.) -/
def get_ea_forum_content (env : Except Unit (List EAEntry)) : List Item :=
  match env with
  | .error _ => []
  | .ok items =>
    match latestEAPub items with
    | none => []
    | some latest =>
      let cutoff := latest - 172800
      let articles_with_dates := items.filterMap (fun e =>
        match e.title, e.link, e.pubDate with
        | some title, some url, some t =>
          if cutoff ≤ t ∧ t ≤ latest then
            some (t, ([("url", JVal.jstr url), ("title", JVal.jstr title),
                       ("article", JVal.jstr (e.description.getD ""))] : Item))
          else none
        | _, _, _ => none)
      let sorted := articles_with_dates.mergeSort (fun a b => decide (a.1 ≤ b.1))
      evictLoop 20000 (sorted.map (fun p => p.2))

/-! ### src/content/email_content.py -/

/-- One message returned by the IMAP search: decoded subject, plain-text body,
and the server INTERNALDATE (converted to the configured timezone; seconds on
the same scale as `LocalDT.toSec`). -/
structure EmailMsg where
  subject : String
  body : String
  internalDate : Int
deriving DecidableEq

/-- How far a call to `get_fast_email_content` gets before an exception, if
any: the `IMAP4_SSL` constructor raises (no connection exists), something
raises after the connection exists (login, select, search, fetch, decoding),
or the whole body succeeds with the given search results. -/
inductive ImapRun where
  | openFail
  | postOpenFail
  | ok (msgs : List EmailMsg)
deriving DecidableEq

/-- Result of a call: the returned list, whether the IMAP connection was
created during the call, and whether `mail.logout()` ran before returning. -/
structure EmailResult where
  content : List Item
  opened : Bool
  loggedOut : Bool
deriving DecidableEq

/-- Returns `some rest` when `pat` is a prefix of the second list, with `rest` the
remainder. -/
def dropPrefixChars : List Char → List Char → Option (List Char)
  | [], s => some s
  | _ :: _, [] => none
  | p :: ps, c :: cs => if p = c then dropPrefixChars ps cs else none

/-- Python's `str.replace`: replace every non-overlapping occurrence of `pat`,
scanning left to right. Fuel-driven structural recursion (any fuel at least
the length of the subject is enough when `pat` is non-empty). -/
def replaceChars (pat rep : List Char) : Nat → List Char → List Char
  | _, [] => []
  | 0, s => s
  | fuel + 1, c :: cs =>
    match dropPrefixChars pat (c :: cs) with
    | some rest => rep ++ replaceChars pat rep fuel rest
    | none => c :: replaceChars pat rep fuel cs

/-- Model of `subject.replace('FAST ♞ ', '')`. -/
def stripFastSubject (s : String) : String :=
  String.mk (replaceChars "FAST ♞ ".data [] s.data.length s.data)

/-- Adapter `get_fast_email_content()`: the whole body sits in one `try` whose handler
returns `[]`; `mail.logout()` is the last statement of the `try` block, so it
runs only when nothing raised. Each message is re-validated against the shared
window with inclusive bounds (`start_time <= date <= end_time`). -/
def get_fast_email_content (now : LocalDT) (run : ImapRun) : EmailResult :=
  let window := get_content_collection_timeframe now
  match run with
  | .openFail => ⟨[], false, false⟩
  | .postOpenFail => ⟨[], true, false⟩
  | .ok msgs =>
    let emails_content := msgs.filterMap (fun m =>
      if window.1.toSec ≤ m.internalDate ∧ m.internalDate ≤ window.2.toSec then
        some [("subject", JVal.jstr (stripFastSubject m.subject)),
              ("body", JVal.jstr m.body),
              ("datetime", JVal.jstr (isoformat m.internalDate)),
              ("source_name", JVal.jstr "FAST Email List")]
      else none)
    ⟨emails_content, true, true⟩

/-! ### src/content/content_manager.py: get_content -/

/-- Exceptions `get_content` can raise on the "AI" branch:
`combined_content.extend(None)` raises `TypeError`, and extending with a dict
inserts its key strings, on which the limiter's sort key
(`x.get("datetime", "")`) raises `AttributeError`. -/
inductive PyErr where
  | typeError
  | attributeError
deriving DecidableEq

/-- One element of the `all_content` list built by `get_content`. -/
structure SectionSource where
  source_name : String
  content : List Item
  content_type : String
deriving DecidableEq

/-- The adapters' results for one run, passed in explicitly (the network and
parsing effects live in the adapters, already modelled above).
`get_rundown_content` returns an optional dict, not a list. -/
structure ContentEnv where
  gq : List Item
  vegconomist : List Item
  ea : List Item
  rundown : Option Item
  fast : List Item

/-- The per-source re-filter at the end of `get_content`. -/
def filterSourceContent (content_type : String) (limited : List Item) : List Item :=
  limited.filter (fun item =>
    (content_type = "emails" && hasKey item "subject") ||
    (content_type = "articles" && hasKey item "url"))

/-- Combine sources, token-limit the combination, re-distribute. -/
def limitSources (sources : List SectionSource) (max_tokens : Int) : List SectionSource :=
  let combined := (sources.map (fun s => s.content)).flatten
  if combined.isEmpty then sources
  else
    let limited := limit_content_by_tokens combined max_tokens
    sources.map (fun s => { s with content := filterSourceContent s.content_type limited })

/-- Dispatcher `get_content(title, max_tokens)` (main calls it with the default
`max_tokens=20000`). Unknown titles log a warning and return the empty
`all_content` list without raising. -/
def get_content (title : String) (env : ContentEnv) (max_tokens : Int) :
    Except PyErr (List SectionSource) :=
  if title = "Alternative Protein" then
    .ok (limitSources [⟨"Green Queen", env.gq, "articles"⟩,
                       ⟨"Vegconomist", env.vegconomist, "articles"⟩] max_tokens)
  else if title = "Vegan Movement" then
    .ok (limitSources [⟨"FAST Email List", env.fast, "emails"⟩] max_tokens)
  else if title = "Effective Altruism" then
    .ok (limitSources [⟨"EA Forum", env.ea, "articles"⟩] max_tokens)
  else if title = "AI" then
    match env.rundown with
    | none => .error .typeError
    | some _ => .error .attributeError
  else
    .ok []

/-! ### Predicates and helpers used by the verification -/

/-- Whether a dict value is a raw `datetime` object. -/
def isJdt : JVal → Bool
  | .jdt _ => true
  | .jstr _ => false

/-- Every binding under the key "datetime" is a string (or there is none):
exactly the shape of the items the adapters hand to the limiter (they emit
isoformat strings, or no datetime field at all). Items with raw datetime
objects would make Python's sort raise `TypeError` when mixed with these. -/
def stringKeyed (it : Item) : Prop :=
  ∀ p ∈ it, p.1 = "datetime" → isJdt p.2 = false

instance (it : Item) : Decidable (stringKeyed it) :=
  inferInstanceAs (Decidable (∀ p ∈ it, p.1 = "datetime" → isJdt p.2 = false))

/-- Strict version of the limiter's sort order, used to pin down the sorted
arrangement of items with pairwise distinct keys. -/
def strictItemLT (u v : Item) : Prop := itemLE u v = true ∧ itemLE v u = false

instance : IsAntisymm Item strictItemLT :=
  ⟨fun _ _ h1 h2 => absurd h2.1 (by simp [h1.2])⟩

/-- The entries the second pass actually processes, in order: the
`untilParseError` prefix of each successfully fetched sitemap. -/
def processedEntries (smaps : List (Except Unit (List SitemapEntry))) : List SitemapEntry :=
  smaps.foldl (fun acc sm =>
    match sm with
    | .error _ => acc
    | .ok entries => acc ++ untilParseError entries) []

/-! ## Lemmas: the Python string order is a strict linear order -/

theorem strLT_irrefl : ∀ a : List Char, strLT a a = false
  | [] => rfl
  | c :: cs => by simp [strLT, strLT_irrefl cs]

theorem strLT_trans : ∀ {a b c : List Char},
    strLT a b = true → strLT b c = true → strLT a c = true
  | [], [], _, h1, _ => by simp [strLT] at h1
  | [], _ :: _, [], _, h2 => by simp [strLT] at h2
  | [], _ :: _, _ :: _, _, _ => rfl
  | _ :: _, [], _, h1, _ => by simp [strLT] at h1
  | _ :: _, _ :: _, [], _, h2 => by simp [strLT] at h2
  | a :: as, b :: bs, c :: cs, h1, h2 => by
    simp only [strLT] at h1 h2 ⊢
    by_cases hab : a = b
    · subst hab
      rw [if_pos rfl] at h1
      by_cases hac : a = c
      · subst hac
        rw [if_pos rfl] at h2 ⊢
        exact strLT_trans h1 h2
      · rw [if_neg hac] at h2 ⊢
        exact h2
    · rw [if_neg hab] at h1
      by_cases hbc : b = c
      · subst hbc
        rw [if_neg hab]
        exact h1
      · rw [if_neg hbc] at h2
        have hac : a < c := lt_trans (of_decide_eq_true h1) (of_decide_eq_true h2)
        rw [if_neg (ne_of_lt hac)]
        exact decide_eq_true hac

theorem strLT_asymm {a b : List Char} (h : strLT a b = true) : strLT b a = false := by
  cases hx : strLT b a
  · rfl
  · have h2 := strLT_trans h hx
    rw [strLT_irrefl] at h2
    exact Bool.noConfusion h2

theorem strLT_conn : ∀ {a b : List Char},
    strLT a b = false → strLT b a = false → a = b
  | [], [], _, _ => rfl
  | [], _ :: _, h1, _ => by simp [strLT] at h1
  | _ :: _, [], _, h2 => by simp [strLT] at h2
  | a :: as, b :: bs, h1, h2 => by
    simp only [strLT] at h1 h2
    by_cases hab : a = b
    · subst hab
      rw [if_pos rfl] at h1
      rw [if_pos rfl] at h2
      rw [strLT_conn h1 h2]
    · rw [if_neg hab] at h1
      rw [if_neg (fun h : b = a => hab h.symm)] at h2
      exact absurd (le_antisymm (not_lt.mp (of_decide_eq_false h2))
        (not_lt.mp (of_decide_eq_false h1))) hab

/-! ## Lemmas: the limiter's sort comparison is transitive and total -/

/-- The relation `not (t < s)` (Python's `s <= t`) is transitive. -/
theorem strLE_trans {s t u : List Char}
    (h1 : strLT t s = false) (h2 : strLT u t = false) : strLT u s = false := by
  cases hx : strLT u s
  · rfl
  · exfalso
    cases hy : strLT t u
    · have hut : u = t := strLT_conn h2 hy
      rw [hut, h1] at hx
      exact Bool.noConfusion hx
    · have h3 := strLT_trans hy hx
      rw [h3] at h1
      exact Bool.noConfusion h1

theorem keyLE_trans {a b c : PyKey} (h1 : keyLE a b = true) (h2 : keyLE b c = true) :
    keyLE a c = true := by
  cases a with
  | pstr s1 =>
    cases c with
    | pstr s3 =>
      cases b with
      | pstr s2 =>
        simp only [keyLE, pyStrLE, pyStrLT, Bool.not_eq_true'] at h1 h2 ⊢
        exact strLE_trans h1 h2
      | pdt t2 => exact absurd h2 (by simp [keyLE])
    | pdt t3 => simp [keyLE]
  | pdt t1 =>
    cases b with
    | pstr s2 => exact absurd h1 (by simp [keyLE])
    | pdt t2 =>
      cases c with
      | pstr s3 => exact absurd h2 (by simp [keyLE])
      | pdt t3 =>
        simp only [keyLE, decide_eq_true_eq] at h1 h2 ⊢
        omega

theorem keyLE_total (a b : PyKey) : (keyLE a b || keyLE b a) = true := by
  cases a with
  | pstr s1 =>
    cases b with
    | pstr s2 =>
      simp only [keyLE, pyStrLE, pyStrLT, Bool.or_eq_true, Bool.not_eq_true']
      cases hx : strLT s2.data s1.data
      · exact Or.inl rfl
      · exact Or.inr (strLT_asymm hx)
    | pdt t2 => simp [keyLE]
  | pdt t1 =>
    cases b with
    | pstr s2 => simp [keyLE]
    | pdt t2 =>
      simp only [keyLE, Bool.or_eq_true, decide_eq_true_eq]
      omega

theorem itemLE_trans {a b c : Item} (h1 : itemLE a b = true) (h2 : itemLE b c = true) :
    itemLE a c = true :=
  keyLE_trans h1 h2

theorem itemLE_total (a b : Item) : (itemLE a b || itemLE b a) = true :=
  keyLE_total (keyOf a) (keyOf b)

/-! ## Lemmas: the eviction loop -/

theorem evictLoop_ne_nil (B : Int) : ∀ {l : List Item}, l ≠ [] → evictLoop B l ≠ []
  | [], h => absurd rfl h
  | [x], _ => by simp [evictLoop]
  | x :: y :: rest, _ => by
    rw [evictLoop]
    split
    · exact evictLoop_ne_nil B (by simp)
    · simp

theorem evictLoop_suffix (B : Int) : ∀ l : List Item, (evictLoop B l).IsSuffix l
  | [] => List.suffix_rfl
  | [x] => by rw [evictLoop]
  | x :: y :: rest => by
    rw [evictLoop]
    split
    · exact (evictLoop_suffix B (y :: rest)).trans (List.suffix_cons x (y :: rest))
    · exact List.suffix_rfl

/-- When the loop stops, either the per-item total fits the budget or a single
item remains. -/
theorem evictLoop_spec (B : Int) : ∀ l : List Item,
    (totalTokens (evictLoop B l) : Int) ≤ B ∨ (evictLoop B l).length ≤ 1
  | [] => Or.inr (by simp [evictLoop])
  | [x] => Or.inr (by simp [evictLoop])
  | x :: y :: rest => by
    rw [evictLoop]
    split
    · exact evictLoop_spec B (y :: rest)
    · rename_i h
      exact Or.inl (by omega)

/-- The loop does nothing when its guard is already false. -/
theorem evictLoop_of_le {B : Int} : ∀ {l : List Item},
    ((totalTokens l : Int) ≤ B ∨ l.length ≤ 1) → evictLoop B l = l
  | [], _ => rfl
  | [x], _ => by rw [evictLoop]
  | x :: y :: rest, h => by
    rw [evictLoop]
    rcases h with h | h
    · rw [if_neg (by omega)]
    · simp at h

/-- The loop `evictLoop` strictly shrinks a list of at least two items whose per-item
total exceeds the budget. -/
theorem evictLoop_shrinks {B : Int} : ∀ {l : List Item},
    (B : Int) < totalTokens l → 2 ≤ l.length → (evictLoop B l).length < l.length
  | [], h, h2 => by simp at h2
  | [x], _, h2 => by simp at h2
  | x :: y :: rest, h, _ => by
    rw [evictLoop, if_pos (by omega)]
    have := (evictLoop_suffix B (y :: rest)).sublist.length_le
    simp only [List.length_cons] at this ⊢
    omega

/-! ## Lemmas: the in-place datetime conversion -/

theorem convertDatetimeVal_of_not_jdt {v : JVal} (h : isJdt v = false) :
    convertDatetimeVal v = v := by
  cases v with
  | jstr s => rfl
  | jdt t => exact absurd h (by simp [isJdt])

theorem convertDatetime_of_stringKeyed {it : Item} (h : stringKeyed it) :
    convertDatetime it = it := by
  unfold convertDatetime
  induction it with
  | nil => rfl
  | cons p rest ih =>
    have hp := h p (List.mem_cons_self p rest)
    have hrest : stringKeyed rest := fun q hq => h q (List.mem_cons_of_mem p hq)
    simp only [List.map_cons, ih hrest]
    by_cases hk : p.1 = "datetime"
    · rw [if_pos hk, convertDatetimeVal_of_not_jdt (hp hk)]
    · simp [hk]

theorem stringKeyed_convertDatetime (it : Item) : stringKeyed (convertDatetime it) := by
  intro p hp hk
  unfold convertDatetime at hp
  rcases List.mem_map.mp hp with ⟨q, hq, hqe⟩
  by_cases hqk : q.1 = "datetime"
  · rw [if_pos hqk] at hqe
    cases hv : q.2 with
    | jstr s => rw [← hqe, hv]; simp [convertDatetimeVal, isJdt]
    | jdt t => rw [← hqe, hv]; simp [convertDatetimeVal, isJdt]
  · rw [if_neg hqk] at hqe
    rw [← hqe] at hk
    exact absurd hk hqk

/-- Items that are stringKeyed throughout a list are mapped to themselves. -/
theorem map_convertDatetime_of_stringKeyed {l : List Item}
    (h : ∀ it ∈ l, stringKeyed it) : l.map convertDatetime = l := by
  have h2 : ∀ it ∈ l, convertDatetime it = it :=
    fun it hit => convertDatetime_of_stringKeyed (h it hit)
  calc l.map convertDatetime = l.map id := List.map_congr_left h2
    _ = l := List.map_id l

/-! ## Lemmas: unfolding the limiter -/

theorem pairwise_mergeSort_itemLE (l : List Item) :
    (l.mergeSort itemLE).Pairwise (fun a b => itemLE a b = true) := by
  have htrans : ∀ (a b c : Item), itemLE a b = true → itemLE b c = true → itemLE a c = true :=
    fun a b c hab hbc => itemLE_trans hab hbc
  have htotal : ∀ (a b : Item), (itemLE a b || itemLE b a) = true :=
    fun a b => itemLE_total a b
  exact List.sorted_mergeSort htrans htotal l

theorem limit_eq_of_sorted {l : List Item} (B : Int)
    (h : l.Pairwise (fun a b => itemLE a b = true)) :
    limit_content_by_tokens l B = (evictLoop B l).map convertDatetime := by
  unfold limit_content_by_tokens
  cases l with
  | nil => rfl
  | cons x rest =>
    rw [if_neg (by simp)]
    rw [List.mergeSort_of_sorted h]

theorem limit_eq (l : List Item) (B : Int) :
    limit_content_by_tokens l B = (evictLoop B (l.mergeSort itemLE)).map convertDatetime := by
  unfold limit_content_by_tokens
  cases hl : l with
  | nil => simp [evictLoop]
  | cons x rest => rw [if_neg (by simp)]

/-! ## Claim C2 -/

/-- C2: for every non-empty list of items and every budget >= 0,
`limit_content_by_tokens` returns a list with at least one item — the last
remaining item is never evicted, even if its serialized size alone exceeds
the budget. -/
theorem C2_limiter_never_empties (l : List Item) (B : Int)
    (hne : l ≠ []) (hB : 0 ≤ B) :
    1 ≤ (limit_content_by_tokens l B).length := by
  rw [limit_eq]
  have hlen : (l.mergeSort itemLE).length = l.length := List.length_mergeSort l
  have hs : l.mergeSort itemLE ≠ [] := by
    intro hnil
    rw [hnil] at hlen
    exact hne (List.length_eq_zero.mp hlen.symm)
  have he := evictLoop_ne_nil B hs
  have hpos : 0 < (evictLoop B (l.mergeSort itemLE)).length := List.length_pos.mpr he
  simpa using hpos

/-- Witness for C2 at a concrete input: a single item whose serialization
alone exceeds the budget 0 still survives. -/
theorem C2_limiter_never_empties_witness :
    1 ≤ (limit_content_by_tokens [[("url", JVal.jstr "https://a.example")]] 0).length :=
  C2_limiter_never_empties [[("url", JVal.jstr "https://a.example")]] 0 (by decide) (by decide)

/-! ## Claim C6 -/

/-- C6: the limiter is idempotent: re-applying it with the same budget to its
own output returns that output unchanged. (Stated for items whose datetime
field is absent or a string — the only shapes the adapters produce; items
holding raw datetime objects mixed into such a list would already make
Python's sort raise `TypeError`.) -/
theorem C6_limiter_idempotent (l : List Item) (B : Int)
    (h : ∀ it ∈ l, stringKeyed it) :
    limit_content_by_tokens (limit_content_by_tokens l B) B = limit_content_by_tokens l B := by
  have hR : limit_content_by_tokens l B = evictLoop B (l.mergeSort itemLE) := by
    rw [limit_eq]
    apply map_convertDatetime_of_stringKeyed
    intro x hx
    exact h x (List.mem_mergeSort.mp ((evictLoop_suffix B (l.mergeSort itemLE)).sublist.mem hx))
  have hEsk : ∀ x ∈ evictLoop B (l.mergeSort itemLE), stringKeyed x := by
    intro x hx
    exact h x (List.mem_mergeSort.mp ((evictLoop_suffix B (l.mergeSort itemLE)).sublist.mem hx))
  have hEpair : (evictLoop B (l.mergeSort itemLE)).Pairwise (fun a b => itemLE a b = true) :=
    (pairwise_mergeSort_itemLE l).sublist (evictLoop_suffix B (l.mergeSort itemLE)).sublist
  rw [hR, limit_eq, List.mergeSort_of_sorted hEpair,
    evictLoop_of_le (evictLoop_spec B (l.mergeSort itemLE)),
    map_convertDatetime_of_stringKeyed hEsk]

/-- Witness for C6 at a concrete input where an eviction actually happens:
three dated articles, a budget that only fits two. -/
theorem C6_limiter_idempotent_witness :
    limit_content_by_tokens
        (limit_content_by_tokens
          [[("title", JVal.jstr "a"), ("datetime", JVal.jstr "2025-01-01")],
           [("title", JVal.jstr "b"), ("datetime", JVal.jstr "2025-01-02")],
           [("title", JVal.jstr "c"), ("datetime", JVal.jstr "2025-01-03")]] 25) 25 =
      limit_content_by_tokens
        [[("title", JVal.jstr "a"), ("datetime", JVal.jstr "2025-01-01")],
         [("title", JVal.jstr "b"), ("datetime", JVal.jstr "2025-01-02")],
         [("title", JVal.jstr "c"), ("datetime", JVal.jstr "2025-01-03")]] 25 :=
  C6_limiter_idempotent
    [[("title", JVal.jstr "a"), ("datetime", JVal.jstr "2025-01-01")],
     [("title", JVal.jstr "b"), ("datetime", JVal.jstr "2025-01-02")],
     [("title", JVal.jstr "c"), ("datetime", JVal.jstr "2025-01-03")]] 25 (by decide)

/-! ## Claim C10 -/

/-- C10: for every section title other than the four recognized ones,
`get_content` returns the empty list and raises nothing. -/
theorem C10_unknown_title_empty (title : String) (env : ContentEnv) (B : Int)
    (h1 : title ≠ "Alternative Protein") (h2 : title ≠ "Vegan Movement")
    (h3 : title ≠ "Effective Altruism") (h4 : title ≠ "AI") :
    get_content title env B = .ok [] := by
  unfold get_content
  rw [if_neg h1, if_neg h2, if_neg h3, if_neg h4]

/-- Witness for C10 at the concrete unknown title "Sports". -/
theorem C10_unknown_title_empty_witness :
    get_content "Sports" ⟨[], [], [], none, []⟩ 20000 = .ok [] :=
  C10_unknown_title_empty "Sports" ⟨[], [], [], none, []⟩ 20000
    (by decide) (by decide) (by decide) (by decide)

/-! ## Claim C5 -/

/-- C5: for every `now`, the resolver's window ends today at the 06:00 cutoff,
starts strictly before it ends at the cutoff hour, spans exactly 1 day when
`now` is Tuesday through Friday, and starts at the most recent Friday's cutoff
(span at most 3 days) when `now` is Saturday, Sunday or Monday. Day 0 is a
Monday, so `now.day % 7` is Python's `weekday()`. -/
theorem C5_timeframe_window (now : LocalDT) :
    (get_content_collection_timeframe now).2 = ⟨now.day, 21600⟩ ∧
    dtLT (get_content_collection_timeframe now).1 (get_content_collection_timeframe now).2 ∧
    (get_content_collection_timeframe now).1.sec = 21600 ∧
    ((now.day % 7 = 1 ∨ now.day % 7 = 2 ∨ now.day % 7 = 3 ∨ now.day % 7 = 4) →
      (get_content_collection_timeframe now).2.day - (get_content_collection_timeframe now).1.day = 1) ∧
    ((now.day % 7 = 0 ∨ now.day % 7 = 5 ∨ now.day % 7 = 6) →
      ((get_content_collection_timeframe now).1.day % 7 = 4 ∧
       (get_content_collection_timeframe now).1.day ≤ now.day ∧
       now.day - (get_content_collection_timeframe now).1.day < 7 ∧
       (get_content_collection_timeframe now).2.day - (get_content_collection_timeframe now).1.day ≤ 3)) := by
  simp only [get_content_collection_timeframe]
  split_ifs with h0 h5 h6 <;>
    refine ⟨by norm_num, by simp only [dtLT]; left; omega, rfl, fun h => by omega,
      fun h => ⟨by omega, by omega, by omega, by omega⟩⟩

/-- Witness for C5 at a concrete Monday 03:00 (day 7): the window ends Monday
06:00 and starts at Friday's (day 4) 06:00 cutoff. -/
theorem C5_timeframe_window_witness :
    (get_content_collection_timeframe ⟨7, 10800⟩).2 = ⟨7, 21600⟩ ∧
    (get_content_collection_timeframe ⟨7, 10800⟩).1.sec = 21600 ∧
    (get_content_collection_timeframe ⟨7, 10800⟩).1.day % 7 = 4 ∧
    (get_content_collection_timeframe ⟨7, 10800⟩).2.day -
      (get_content_collection_timeframe ⟨7, 10800⟩).1.day ≤ 3 :=
  ⟨(C5_timeframe_window ⟨7, 10800⟩).1,
   (C5_timeframe_window ⟨7, 10800⟩).2.2.1,
   ((C5_timeframe_window ⟨7, 10800⟩).2.2.2.2 (Or.inl (by decide))).1,
   ((C5_timeframe_window ⟨7, 10800⟩).2.2.2.2 (Or.inl (by decide))).2.2.2⟩

/-! ## Claim C4 -/

theorem keyLE_refl (k : PyKey) : keyLE k k = true := by
  cases k with
  | pstr s => simp [keyLE, pyStrLE, pyStrLT, strLT_irrefl]
  | pdt t => simp [keyLE]

theorem itemLE_refl (a : Item) : itemLE a a = true := keyLE_refl (keyOf a)

/-- One unfolding step of the eviction loop on a list of at least two items. -/
theorem evictLoop_cons₂ (B : Int) (x y : Item) (rest : List Item) :
    evictLoop B (x :: y :: rest) =
      if (totalTokens (x :: y :: rest) : Int) > B then evictLoop B (y :: rest)
      else x :: y :: rest := rfl

/-- A permutation of three strictly ordered items merge-sorts to exactly that
order. -/
theorem mergeSort_triple {a b c : Item} {l : List Item}
    (hab : itemLE a b = true) (hbc : itemLE b c = true) (hac : itemLE a c = true)
    (hba : itemLE b a = false) (hcb : itemLE c b = false) (hca : itemLE c a = false)
    (hp : l.Perm [a, b, c]) : l.mergeSort itemLE = [a, b, c] := by
  have hne_ab : a ≠ b := by
    intro h
    rw [h, itemLE_refl] at hba
    exact Bool.noConfusion hba
  have hne_bc : b ≠ c := by
    intro h
    rw [h, itemLE_refl] at hcb
    exact Bool.noConfusion hcb
  have hne_ac : a ≠ c := by
    intro h
    rw [h, itemLE_refl] at hca
    exact Bool.noConfusion hca
  have hperm : (l.mergeSort itemLE).Perm [a, b, c] := (List.mergeSort_perm l itemLE).trans hp
  have hpair := pairwise_mergeSort_itemLE l
  have hnodup : ([a, b, c] : List Item).Nodup := by
    refine List.Pairwise.cons ?_ (List.Pairwise.cons ?_
      (List.Pairwise.cons (fun y hy => absurd hy (List.not_mem_nil y)) List.Pairwise.nil))
    · intro y hy
      rcases List.mem_cons.mp hy with h | h
      · rw [h]; exact hne_ab
      · rw [List.mem_singleton.mp h]; exact hne_ac
    · intro y hy
      rw [List.mem_singleton.mp hy]; exact hne_bc
  have hnodupE : (l.mergeSort itemLE).Nodup := hperm.nodup_iff.mpr hnodup
  have hmemE : ∀ x ∈ l.mergeSort itemLE, x = a ∨ x = b ∨ x = c := by
    intro x hx
    have := hperm.mem_iff.mp hx
    simpa using this
  have hstrict : (l.mergeSort itemLE).Pairwise strictItemLT := by
    refine List.Pairwise.imp_of_mem ?_ (hpair.and hnodupE)
    intro u v hu hv huv
    rcases hmemE u hu with hua | hub | huc <;> rcases hmemE v hv with hva | hvb | hvc <;>
      subst_vars
    · exact absurd rfl huv.2
    · exact ⟨huv.1, hba⟩
    · exact ⟨huv.1, hca⟩
    · exact absurd huv.1 (by simp [hba])
    · exact absurd rfl huv.2
    · exact ⟨huv.1, hcb⟩
    · exact absurd huv.1 (by simp [hca])
    · exact absurd huv.1 (by simp [hcb])
    · exact absurd rfl huv.2
  have habc : ([a, b, c] : List Item).Pairwise strictItemLT := by
    refine List.Pairwise.cons ?_ (List.Pairwise.cons ?_
      (List.Pairwise.cons (fun y hy => absurd hy (List.not_mem_nil y)) List.Pairwise.nil))
    · intro y hy
      rcases List.mem_cons.mp hy with h | h
      · rw [h]; exact ⟨hab, hba⟩
      · rw [List.mem_singleton.mp h]; exact ⟨hac, hca⟩
    · intro y hy
      rw [List.mem_singleton.mp hy]; exact ⟨hbc, hcb⟩
  exact List.eq_of_perm_of_sorted hperm hstrict habc

/-- C4: the limiter evicts strictly oldest-first: it sorts by the datetime key
ascending and removes from the front; in particular, for three items with
strictly increasing (string) timestamps, presented in any order, where only
the two newest together fit the budget, the result is exactly the two newest,
in timestamp order. -/
theorem C4_limiter_oldest_first (a b c : Item) (l : List Item) (B : Int)
    (s1 s2 s3 : String)
    (hda : getField a "datetime" = some (JVal.jstr s1))
    (hdb : getField b "datetime" = some (JVal.jstr s2))
    (hdc : getField c "datetime" = some (JVal.jstr s3))
    (h12 : pyStrLT s1 s2 = true) (h23 : pyStrLT s2 s3 = true)
    (hska : stringKeyed a) (hskb : stringKeyed b) (hskc : stringKeyed c)
    (hp : l.Perm [a, b, c])
    (hfit : (tokensOfItem b : Int) + tokensOfItem c ≤ B)
    (hover : (B : Int) < (tokensOfItem a : Int) + tokensOfItem b + tokensOfItem c) :
    limit_content_by_tokens l B = [b, c] := by
  have hka : keyOf a = .pstr s1 := by unfold keyOf; rw [hda]
  have hkb : keyOf b = .pstr s2 := by unfold keyOf; rw [hdb]
  have hkc : keyOf c = .pstr s3 := by unfold keyOf; rw [hdc]
  have h12' : strLT s1.data s2.data = true := h12
  have h23' : strLT s2.data s3.data = true := h23
  have h13' : strLT s1.data s3.data = true := strLT_trans h12' h23'
  have hab : itemLE a b = true := by
    simp only [itemLE, hka, hkb, keyLE, pyStrLE, pyStrLT, strLT_asymm h12', Bool.not_false]
  have hbc : itemLE b c = true := by
    simp only [itemLE, hkb, hkc, keyLE, pyStrLE, pyStrLT, strLT_asymm h23', Bool.not_false]
  have hac : itemLE a c = true := by
    simp only [itemLE, hka, hkc, keyLE, pyStrLE, pyStrLT, strLT_asymm h13', Bool.not_false]
  have hba : itemLE b a = false := by
    simp only [itemLE, hkb, hka, keyLE, pyStrLE, pyStrLT, h12', Bool.not_true]
  have hcb : itemLE c b = false := by
    simp only [itemLE, hkc, hkb, keyLE, pyStrLE, pyStrLT, h23', Bool.not_true]
  have hca : itemLE c a = false := by
    simp only [itemLE, hkc, hka, keyLE, pyStrLE, pyStrLT, h13', Bool.not_true]
  rw [limit_eq, mergeSort_triple hab hbc hac hba hcb hca hp]
  have htot3 : totalTokens [a, b, c] = tokensOfItem a + (tokensOfItem b + (tokensOfItem c + 0)) := rfl
  have htot2 : totalTokens [b, c] = tokensOfItem b + (tokensOfItem c + 0) := rfl
  rw [evictLoop_cons₂, if_pos (by rw [htot3]; push_cast; omega)]
  rw [evictLoop_cons₂, if_neg (by rw [htot2]; push_cast; omega)]
  rw [List.map_cons, List.map_cons, List.map_nil,
    convertDatetime_of_stringKeyed hskb, convertDatetime_of_stringKeyed hskc]

/-- Witness for C4: three dated equal-size articles given newest-first; with a
budget fitting only the two newest, the limiter returns exactly the two
newest, oldest of the survivors first. -/
theorem C4_limiter_oldest_first_witness :
    pyStrLT "2025-01-01T06:00:00" "2025-01-02T06:00:00" = true ∧
    pyStrLT "2025-01-02T06:00:00" "2025-01-03T06:00:00" = true ∧
    ([[("title", JVal.jstr "new story"), ("article", JVal.jstr "cccccccccccccccccccccccc"),
       ("datetime", JVal.jstr "2025-01-03T06:00:00")],
      [("title", JVal.jstr "old story"), ("article", JVal.jstr "aaaaaaaaaaaaaaaaaaaaaaaa"),
       ("datetime", JVal.jstr "2025-01-01T06:00:00")],
      [("title", JVal.jstr "mid story"), ("article", JVal.jstr "bbbbbbbbbbbbbbbbbbbbbbbb"),
       ("datetime", JVal.jstr "2025-01-02T06:00:00")]] : List Item).Perm
      [[("title", JVal.jstr "old story"), ("article", JVal.jstr "aaaaaaaaaaaaaaaaaaaaaaaa"),
        ("datetime", JVal.jstr "2025-01-01T06:00:00")],
       [("title", JVal.jstr "mid story"), ("article", JVal.jstr "bbbbbbbbbbbbbbbbbbbbbbbb"),
        ("datetime", JVal.jstr "2025-01-02T06:00:00")],
       [("title", JVal.jstr "new story"), ("article", JVal.jstr "cccccccccccccccccccccccc"),
        ("datetime", JVal.jstr "2025-01-03T06:00:00")]] ∧
    limit_content_by_tokens
      [[("title", JVal.jstr "new story"), ("article", JVal.jstr "cccccccccccccccccccccccc"),
        ("datetime", JVal.jstr "2025-01-03T06:00:00")],
       [("title", JVal.jstr "old story"), ("article", JVal.jstr "aaaaaaaaaaaaaaaaaaaaaaaa"),
        ("datetime", JVal.jstr "2025-01-01T06:00:00")],
       [("title", JVal.jstr "mid story"), ("article", JVal.jstr "bbbbbbbbbbbbbbbbbbbbbbbb"),
        ("datetime", JVal.jstr "2025-01-02T06:00:00")]] 50 =
      [[("title", JVal.jstr "mid story"), ("article", JVal.jstr "bbbbbbbbbbbbbbbbbbbbbbbb"),
        ("datetime", JVal.jstr "2025-01-02T06:00:00")],
       [("title", JVal.jstr "new story"), ("article", JVal.jstr "cccccccccccccccccccccccc"),
        ("datetime", JVal.jstr "2025-01-03T06:00:00")]] :=
  ⟨by decide, by decide, by decide,
    C4_limiter_oldest_first
      [("title", JVal.jstr "old story"), ("article", JVal.jstr "aaaaaaaaaaaaaaaaaaaaaaaa"),
       ("datetime", JVal.jstr "2025-01-01T06:00:00")]
      [("title", JVal.jstr "mid story"), ("article", JVal.jstr "bbbbbbbbbbbbbbbbbbbbbbbb"),
       ("datetime", JVal.jstr "2025-01-02T06:00:00")]
      [("title", JVal.jstr "new story"), ("article", JVal.jstr "cccccccccccccccccccccccc"),
       ("datetime", JVal.jstr "2025-01-03T06:00:00")]
      [[("title", JVal.jstr "new story"), ("article", JVal.jstr "cccccccccccccccccccccccc"),
        ("datetime", JVal.jstr "2025-01-03T06:00:00")],
       [("title", JVal.jstr "old story"), ("article", JVal.jstr "aaaaaaaaaaaaaaaaaaaaaaaa"),
        ("datetime", JVal.jstr "2025-01-01T06:00:00")],
       [("title", JVal.jstr "mid story"), ("article", JVal.jstr "bbbbbbbbbbbbbbbbbbbbbbbb"),
        ("datetime", JVal.jstr "2025-01-02T06:00:00")]]
      50 "2025-01-01T06:00:00" "2025-01-02T06:00:00" "2025-01-03T06:00:00"
      (by decide) (by decide) (by decide) (by decide) (by decide)
      (by decide) (by decide) (by decide) (by decide) (by decide) (by decide)⟩

/-! ## Claim C3 -/

theorem totalTokens_perm {l l' : List Item} (h : l.Perm l') :
    totalTokens l = totalTokens l' :=
  (h.map tokensOfItem).sum_eq

/-- C3 counterexample: with two one-field items and budget 5, the limiter
keeps both because its per-item total is 4, although the whole-collection
encoding `json.dumps(items)` — the payload shape `main` actually sends —
estimates to 6 tokens. The claim's `total = estimate_tokens(serialize(items))`
would have forced an eviction here; the code's per-item sum does not. -/
theorem C3_counterexample :
    limit_content_by_tokens [[("a", JVal.jstr "x")], [("b", JVal.jstr "y")]] 5 =
      [[("a", JVal.jstr "x")], [("b", JVal.jstr "y")]] ∧
    totalTokens [[("a", JVal.jstr "x")], [("b", JVal.jstr "y")]] = 4 ∧
    num_tokens_from_string
      (jsonDumpsList [[("a", JVal.jstr "x")], [("b", JVal.jstr "y")]]) = 6 ∧
    ¬ num_tokens_from_string
        (jsonDumpsList [[("a", JVal.jstr "x")], [("b", JVal.jstr "y")]]) ≤ 5 := by
  refine ⟨?_, by decide, by decide, by decide⟩
  rw [limit_eq_of_sorted 5 (by decide)]
  decide

/-- C3 amended: the total the limiter compares against the budget is the
per-item sum `sum(num_tokens(json.dumps(item)) for item in content)`, not the
estimate of one whole-collection serialization: the limiter performs no
eviction exactly on the per-item criterion, and evicts at least one item
whenever that per-item sum exceeds the budget and two or more items are
present. -/
theorem C3_amended_per_item_sum (l : List Item) (B : Int)
    (h : ∀ it ∈ l, stringKeyed it) :
    ((totalTokens l : Int) ≤ B → (limit_content_by_tokens l B).Perm l) ∧
    ((B : Int) < totalTokens l → 2 ≤ l.length →
      (limit_content_by_tokens l B).length < l.length) := by
  have hperm : (l.mergeSort itemLE).Perm l := List.mergeSort_perm l itemLE
  have htot : totalTokens (l.mergeSort itemLE) = totalTokens l := totalTokens_perm hperm
  have hsk : ∀ x ∈ l.mergeSort itemLE, stringKeyed x :=
    fun x hx => h x (List.mem_mergeSort.mp hx)
  constructor
  · intro hle
    rw [limit_eq, evictLoop_of_le (Or.inl (by rw [htot]; exact hle)),
      map_convertDatetime_of_stringKeyed hsk]
    exact hperm
  · intro hgt hlen
    rw [limit_eq, List.length_map]
    have hlen' : 2 ≤ (l.mergeSort itemLE).length := by
      rw [List.length_mergeSort]
      exact hlen
    have := evictLoop_shrinks (by rw [htot]; exact hgt) hlen'
    rw [List.length_mergeSort] at this
    exact this

/-- Witness for the amended C3: at the counterexample input the limiter's
output is a permutation of the input (no eviction), because the per-item sum
fits the budget. -/
theorem C3_amended_per_item_sum_witness :
    (limit_content_by_tokens [[("a", JVal.jstr "x")], [("b", JVal.jstr "y")]] 5).Perm
      [[("a", JVal.jstr "x")], [("b", JVal.jstr "y")]] :=
  (C3_amended_per_item_sum [[("a", JVal.jstr "x")], [("b", JVal.jstr "y")]] 5
    (by decide)).1 (by decide)

/-! ## Claim C7 -/

/-- C7 counterexample: an item whose datetime field holds a datetime object
survives the limiter with that field rewritten in place to its isoformat
string — the returned item (the same Python object as the input item) is not
field-for-field unchanged. -/
theorem C7_counterexample :
    limit_content_by_tokens [[("subject", JVal.jstr "s"), ("datetime", JVal.jdt 100)]] 20000 =
      [[("subject", JVal.jstr "s"), ("datetime", JVal.jstr "dt:100")]] ∧
    ([("subject", JVal.jstr "s"), ("datetime", JVal.jstr "dt:100")] : Item) ≠
      [("subject", JVal.jstr "s"), ("datetime", JVal.jdt 100)] := by
  refine ⟨?_, by decide⟩
  rw [limit_eq_of_sorted 20000 (by decide)]
  decide

theorem getField_convertDatetime : ∀ (it : Item) (k : String), k ≠ "datetime" →
    getField (convertDatetime it) k = getField it k
  | [], _, _ => rfl
  | (pk, pv) :: rest, k, hk => by
    simp only [convertDatetime, List.map_cons]
    by_cases hpk : pk = "datetime"
    · rw [if_pos hpk]
      simp only [getField]
      rw [if_neg (fun h : pk = k => hk (h ▸ hpk)), if_neg (fun h : pk = k => hk (h ▸ hpk))]
      exact getField_convertDatetime rest k hk
    · rw [if_neg hpk]
      simp only [getField]
      by_cases hpkk : pk = k
      · rw [if_pos hpkk, if_pos hpkk]
      · rw [if_neg hpkk, if_neg hpkk]
        exact getField_convertDatetime rest k hk

/-- C7 amended: the limiter only removes items, except for one in-place
mutation: each surviving item is the datetime-conversion of an input item
(datetime objects replaced by their isoformat strings); every field other
than "datetime" is left untouched by that conversion. -/
theorem C7_amended_only_datetime_converted (l : List Item) (B : Int) :
    (∀ x ∈ limit_content_by_tokens l B, ∃ y ∈ l, x = convertDatetime y) ∧
    (∀ (it : Item) (k : String), k ≠ "datetime" →
      getField (convertDatetime it) k = getField it k) := by
  constructor
  · rw [limit_eq]
    intro x hx
    rcases List.mem_map.mp hx with ⟨y, hy, rfl⟩
    exact ⟨y, List.mem_mergeSort.mp ((evictLoop_suffix B (l.mergeSort itemLE)).sublist.mem hy),
      rfl⟩
  · exact fun it k hk => getField_convertDatetime it k hk

/-- Witness for the amended C7: the conversion leaves the "subject" field of a
concrete item with a datetime object unchanged. -/
theorem C7_amended_only_datetime_converted_witness :
    getField (convertDatetime [("subject", JVal.jstr "s"), ("datetime", JVal.jdt 100)])
        "subject" =
      getField [("subject", JVal.jstr "s"), ("datetime", JVal.jdt 100)] "subject" :=
  (C7_amended_only_datetime_converted [] 0).2
    [("subject", JVal.jstr "s"), ("datetime", JVal.jdt 100)] "subject" (by decide)

/-! ## Claim C1 -/

/-- The second pass over one sub-sitemap collects exactly the in-window URLs
of the prefix it processes before the first parse error aborts it. -/
theorem keptUrlsPass_eq (c L : Int) : ∀ entries : List SitemapEntry,
    keptUrlsPass c L entries = keptUrls c L (untilParseError entries)
  | [] => rfl
  | ⟨loc, lm⟩ :: rest => by
    cases loc with
    | none =>
      cases lm <;>
        simpa [keptUrlsPass, untilParseError, keptUrls] using keptUrlsPass_eq c L rest
    | some u =>
      cases lm with
      | absent =>
        simpa [keptUrlsPass, untilParseError, keptUrls] using keptUrlsPass_eq c L rest
      | malformed => simp [keptUrlsPass, untilParseError, keptUrls]
      | parsed t =>
        by_cases hc : c ≤ t ∧ t ≤ L <;>
          simp [keptUrlsPass, untilParseError, keptUrls, hc, keptUrlsPass_eq c L rest]

theorem processedEntries_foldl :
    ∀ (smaps : List (Except Unit (List SitemapEntry))) (acc : List SitemapEntry),
      smaps.foldl (fun a sm => match sm with
        | .error _ => a
        | .ok es => a ++ untilParseError es) acc =
        acc ++ processedEntries smaps
  | [], acc => (List.append_nil acc).symm
  | sm :: rest, acc => by
    simp only [processedEntries, List.foldl_cons]
    cases sm with
    | error e =>
      rw [processedEntries_foldl rest acc, processedEntries_foldl rest []]
      simp
    | ok es =>
      rw [processedEntries_foldl rest (acc ++ untilParseError es),
        processedEntries_foldl rest ([] ++ untilParseError es)]
      simp

theorem keptUrls_append (c L : Int) (x y : List SitemapEntry) :
    keptUrls c L (x ++ y) = keptUrls c L x ++ keptUrls c L y :=
  List.filterMap_append x y _

theorem kept_foldl (c L : Int) :
    ∀ (smaps : List (Except Unit (List SitemapEntry))) (acc : List String),
      smaps.foldl (fun a sm => match sm with
        | .error _ => a
        | .ok es => a ++ keptUrlsPass c L es) acc =
        acc ++ keptUrls c L (processedEntries smaps)
  | [], acc => by simp [processedEntries, keptUrls]
  | sm :: rest, acc => by
    simp only [List.foldl_cons]
    cases sm with
    | error e =>
      rw [kept_foldl c L rest acc]
      have h1 : processedEntries (Except.error e :: rest) = processedEntries rest := by
        simp only [processedEntries, List.foldl_cons]
      rw [h1]
    | ok es =>
      rw [kept_foldl c L rest (acc ++ keptUrlsPass c L es)]
      have h1 : processedEntries (Except.ok es :: rest) =
          untilParseError es ++ processedEntries rest := by
        simp only [processedEntries, List.foldl_cons]
        exact processedEntries_foldl rest ([] ++ untilParseError es) |>.trans
          (by simp [processedEntries])
      rw [h1, keptUrls_append, keptUrlsPass_eq c L es, List.append_assoc]

/-- C1 counterexample: a sitemap whose only entries are days older than the
resolver window. The adapter keeps "u1" (it is within 24 hours of the feed's
own newest `lastmod`), yet its timestamp 300000 lies outside the shared
window the Timeframe Resolver computes for a Thursday-08:00 run (day 10) —
so "kept iff `window.start <= t <= window.end`" fails on the kept side. The
adapter also drops "u0" although dropping is claimed to happen only for
out-of-window entries relative to the same shared window. -/
theorem C1_counterexample :
    get_latest_24h_articles
        [Except.ok [⟨some "u1", Lastmod.parsed 300000⟩,
                    ⟨some "u0", Lastmod.parsed 210000⟩]] = ["u1"] ∧
    ¬ ((get_content_collection_timeframe ⟨10, 28800⟩).1.toSec ≤ 300000 ∧
       (300000 : Int) ≤ (get_content_collection_timeframe ⟨10, 28800⟩).2.toSec) :=
  ⟨by decide, by decide⟩

/-- C1 amended, covering the two adapters the claim cites; neither takes the
resolver window as an input. (a) The sitemap adapter keeps exactly the URLs of
entries with `latest - 24h <= lastmod <= latest` — `latest` being the feed's
own maximum parseable `lastmod` — among the entries its second pass processes:
within each sub-sitemap only the prefix up to the first entry whose present
`lastmod` fails to parse, since that raise aborts the rest of the sub-sitemap.
(b) Every article the EA Forum adapter returns stems from a feed item whose
`pubDate` `t` satisfies `latest - 48h <= t <= latest` for the feed's own
newest `pubDate` (its token-eviction loop may drop further in-window items, so
only this containment direction holds). -/
theorem C1_amended_feed_relative_window :
    (∀ (smaps : List (Except Unit (List SitemapEntry))) (L : Int),
        latestLastmod smaps = some L →
        get_latest_24h_articles smaps = keptUrls (L - 86400) L (processedEntries smaps)) ∧
    (∀ (entries : List EAEntry) (L : Int),
        latestEAPub entries = some L →
        ∀ it ∈ get_ea_forum_content (Except.ok entries),
          ∃ e ∈ entries, ∃ t title url,
            e.pubDate = some t ∧ e.title = some title ∧ e.link = some url ∧
            L - 172800 ≤ t ∧ t ≤ L ∧
            it = [("url", JVal.jstr url), ("title", JVal.jstr title),
                  ("article", JVal.jstr (e.description.getD ""))]) := by
  constructor
  · intro smaps L h
    unfold get_latest_24h_articles
    rw [h]
    exact (kept_foldl (L - 86400) L smaps []).trans (by simp)
  · intro entries L hEA it hit
    simp only [get_ea_forum_content, hEA] at hit
    have hit2 := (evictLoop_suffix 20000 _).sublist.mem hit
    rcases List.mem_map.mp hit2 with ⟨p, hp, hpe⟩
    have hp2 := List.mem_mergeSort.mp hp
    rcases List.mem_filterMap.mp hp2 with ⟨e, he, hfe⟩
    cases ht : e.title with
    | none => simp [ht] at hfe
    | some title =>
      cases hl : e.link with
      | none => simp [ht, hl] at hfe
      | some url =>
        cases hd : e.pubDate with
        | none => simp [ht, hl, hd] at hfe
        | some t =>
          simp only [ht, hl, hd] at hfe
          by_cases hc : L - 172800 ≤ t ∧ t ≤ L
          · rw [if_pos hc] at hfe
            have hpeq := Option.some.inj hfe
            refine ⟨e, he, t, title, url, hd, ht, hl, hc.1, hc.2, ?_⟩
            rw [← hpe, ← hpeq]
          · rw [if_neg hc] at hfe
            exact absurd hfe (by simp)

/-- Witness for the amended C1: a sub-sitemap holding an in-window entry, then
a malformed date, then another in-window entry. The characterization applies
with the feed's maximum parseable lastmod 300000, and the adapter returns only
"u1" — "u2" (timestamp 299000, inside the feed-relative window) is lost to the
parse-error abort. The second conjunct of the theorem is exercised on a
one-item EA feed, whose article survives intact. -/
theorem C1_amended_feed_relative_window_witness :
    (get_latest_24h_articles
        [Except.ok [⟨some "u1", Lastmod.parsed 300000⟩, ⟨some "ubad", Lastmod.malformed⟩,
                    ⟨some "u2", Lastmod.parsed 299000⟩]] =
      keptUrls (300000 - 86400) 300000
        (processedEntries
          [Except.ok [⟨some "u1", Lastmod.parsed 300000⟩, ⟨some "ubad", Lastmod.malformed⟩,
                      ⟨some "u2", Lastmod.parsed 299000⟩]])) ∧
    (get_latest_24h_articles
        [Except.ok [⟨some "u1", Lastmod.parsed 300000⟩, ⟨some "ubad", Lastmod.malformed⟩,
                    ⟨some "u2", Lastmod.parsed 299000⟩]] = ["u1"]) ∧
    get_ea_forum_content (Except.ok [⟨some "T", some "U", some "D", some 1000⟩]) =
      [[("url", JVal.jstr "U"), ("title", JVal.jstr "T"), ("article", JVal.jstr "D")]] :=
  ⟨C1_amended_feed_relative_window.1
      [Except.ok [⟨some "u1", Lastmod.parsed 300000⟩, ⟨some "ubad", Lastmod.malformed⟩,
                  ⟨some "u2", Lastmod.parsed 299000⟩]] 300000 (by decide),
   by decide,
   by
    have h1 : latestEAPub [⟨some "T", some "U", some "D", some 1000⟩] = some 1000 := by decide
    simp only [get_ea_forum_content, h1]
    rw [List.mergeSort_of_sorted (by decide)]
    decide⟩

/-! ## Claim C8 -/

/-- C8 counterexample: `get_rundown_content` returns `None` — not a sequence —
when the feed is empty and when fetching the article page raises, and
`get_ts_content` re-raises instead of returning an empty sequence, both when
the page fetch raises and when no `bodyContent` cell exists. -/
theorem C8_counterexample :
    get_rundown_content [] (fun _ => Except.error ()) = none ∧
    get_rundown_content [(5, "https://rundown.example/latest")]
        (fun _ => Except.error ()) = none ∧
    get_ts_content (Except.error ()) = Except.error () ∧
    get_ts_content (Except.ok []) = Except.error () :=
  ⟨rfl, rfl, rfl, rfl⟩

/-- C8 amended: the list-returning adapters (Green Queen sitemap chain,
Vegconomist, EA Forum, FAST mailbox) do return an empty list on whole-adapter
failure; but `get_rundown_content` signals whole-adapter failure with `None`
(not a sequence), and `get_ts_content` propagates the exception. -/
theorem C8_amended_failure_values (now : LocalDT) :
    get_vegconomist_content (Except.error ()) = [] ∧
    get_ea_forum_content (Except.error ()) = [] ∧
    (∀ siteEnv pageEnv, get_gq_content (Except.error ()) siteEnv pageEnv = []) ∧
    (get_fast_email_content now ImapRun.openFail).content = [] ∧
    (get_fast_email_content now ImapRun.postOpenFail).content = [] ∧
    (∀ entries, get_rundown_content entries (fun _ => Except.error ()) = none) ∧
    (∀ e, get_ts_content (Except.error e) = Except.error e) := by
  refine ⟨rfl, rfl, fun siteEnv pageEnv => rfl, rfl, rfl, fun entries => ?_, fun e => rfl⟩
  cases h : mostRecentLink entries with
  | none => simp [get_rundown_content, h]
  | some link => simp [get_rundown_content, h]

/-- Witness for the amended C8 at concrete failing environments. -/
theorem C8_amended_failure_values_witness :
    get_rundown_content [(5, "https://rundown.example/latest")]
        (fun _ => Except.error ()) = none ∧
    get_ts_content (Except.error ()) = Except.error () :=
  ⟨(C8_amended_failure_values ⟨0, 0⟩).2.2.2.2.2.1 [(5, "https://rundown.example/latest")],
   (C8_amended_failure_values ⟨0, 0⟩).2.2.2.2.2.2 ()⟩

/-! ## Claim C9 -/

/-- C9 counterexample: when an exception is raised after the IMAP connection
was opened (login, select, search or fetch fails), the handler returns `[]`
without ever calling `mail.logout()` — the connection is opened but not
disconnected before the call returns. -/
theorem C9_counterexample :
    (get_fast_email_content ⟨0, 0⟩ ImapRun.postOpenFail).opened = true ∧
    (get_fast_email_content ⟨0, 0⟩ ImapRun.postOpenFail).loggedOut = false :=
  ⟨rfl, rfl⟩

/-- C9 amended: `mail.logout()` is the last statement of the `try` block, so
the connection is logged out iff the whole body ran without an exception; on
any caught exception the call returns the empty list without logging out. -/
theorem C9_amended_logout_only_on_success (now : LocalDT) (run : ImapRun) :
    ((get_fast_email_content now run).loggedOut = true ↔ ∃ msgs, run = ImapRun.ok msgs) ∧
    ((get_fast_email_content now run).loggedOut = false →
      (get_fast_email_content now run).content = []) := by
  cases run with
  | openFail =>
    refine ⟨⟨fun h => ?_, fun ⟨msgs, hm⟩ => ?_⟩, fun _ => rfl⟩
    · have hf : (get_fast_email_content now ImapRun.openFail).loggedOut = false := rfl
      rw [hf] at h
      exact Bool.noConfusion h
    · exact ImapRun.noConfusion hm
  | postOpenFail =>
    refine ⟨⟨fun h => ?_, fun ⟨msgs, hm⟩ => ?_⟩, fun _ => rfl⟩
    · have hf : (get_fast_email_content now ImapRun.postOpenFail).loggedOut = false := rfl
      rw [hf] at h
      exact Bool.noConfusion h
    · exact ImapRun.noConfusion hm
  | ok msgs =>
    refine ⟨⟨fun _ => ⟨msgs, rfl⟩, fun _ => rfl⟩, fun h => ?_⟩
    have ht : (get_fast_email_content now (ImapRun.ok msgs)).loggedOut = true := rfl
    rw [ht] at h
    exact Bool.noConfusion h

/-- Witness for the amended C9: a fully successful call does log out. -/
theorem C9_amended_logout_only_on_success_witness :
    (get_fast_email_content ⟨0, 0⟩ (ImapRun.ok [])).loggedOut = true :=
  ((C9_amended_logout_only_on_success ⟨0, 0⟩ (ImapRun.ok [])).1).mpr ⟨[], rfl⟩

end DailyBriefing
